import Mathlib

/-!
Verification development for the nauman flow runner core
(src/execution.rs and src/output.rs): flow execution state machine,
execution policies, environment propagation, concurrent stream capture,
and multiplexed output sinks, shallowly embedded in Lean 4.
-/

namespace Nauman

/-- Modelled from the spec: `common::Env` (common.rs is not in src/), an
accumulated environment mapping with last-write-wins overlay semantics. -/
def EnvMap : Type := String → Option String

/-- Modelled from the spec: the empty environment mapping. -/
def EnvMap.empty : EnvMap := fun _ => none

/-- Modelled from the spec: `Env::insert`, binding one key, overriding any
earlier binding of that key. -/
def EnvMap.insert (e : EnvMap) (k v : String) : EnvMap :=
  fun x => if x = k then some v else e x

/-- Modelled from the spec: `Env::extend`, overlaying mapping `g` on top of
`e`; on key collision the binding from `g` (the later write) wins. -/
def EnvMap.extend (e g : EnvMap) : EnvMap :=
  fun x => match g x with
    | some v => some v
    | none => e x

/-- Modelled from the spec: lookup of a key in the environment mapping. -/
def EnvMap.get (e : EnvMap) (k : String) : Option String := e k

/-- Embeds `ExecutionState` (execution.rs lines 11-15). -/
inductive ExecutionState where
  | Running
  | Failed
deriving DecidableEq, Repr

/-- Embeds `ExecutionResult` (execution.rs lines 17-24): command id, focus id,
exit code, aborted flag, optional duration (modelled in nanoseconds). -/
structure ExecutionResult where
  command_id : String
  focus_id : Option String
  exit_code : Int
  aborted : Bool
  duration : Option Nat
deriving DecidableEq, Repr

/-- Embeds `ExecutionResult::is_success` (execution.rs lines 27-29). -/
def ExecutionResult.is_success (r : ExecutionResult) : Bool :=
  r.exit_code == 0

/-- Embeds `ExecutionResult::is_aborted` (execution.rs lines 31-33). -/
def ExecutionResult.is_aborted (r : ExecutionResult) : Bool :=
  r.aborted

/-- Modelled from the spec: `config::ExecutionPolicy` (config.rs is not in
src/); the three policy variants named in execution.rs lines 326-330. -/
inductive ExecutionPolicy where
  | NoPriorFailed
  | PriorSuccess
  | Always
deriving DecidableEq, Repr

/-- Modelled from the spec: the fields of `flow::Command` (flow.rs is not in
src/) that execution.rs reads: display name, step-level environment
overrides, execution policy, hook flag. -/
structure Command where
  name : String
  env : EnvMap
  policy : ExecutionPolicy
  is_hook : Bool

/-- Embeds the policy evaluation of `Executor::execute_step`
(execution.rs lines 326-330) computing `context.will_execute` from the
policy, the overall state, and the previous non-hook result. -/
def willExecute (policy : ExecutionPolicy) (state : ExecutionState)
    (previous : Option ExecutionResult) : Bool :=
  match policy with
  | .NoPriorFailed => state ≠ ExecutionState.Failed
  | .PriorSuccess => (previous.map (fun r => r.is_success)).getD true
  | .Always => true

/-- Embeds the post-step context update of `Executor::execute_step`
(execution.rs lines 381-388): for a non-hook command, transition the state to
Failed when the result is neither a success nor aborted, and record the
result as previous; a hook command changes neither. -/
def recordResult (c : Command) (result : ExecutionResult)
    (state : ExecutionState) (previous : Option ExecutionResult) :
    ExecutionState × Option ExecutionResult :=
  if c.is_hook = false then
    let state2 :=
      if result.is_success = false ∧ result.is_aborted = false then
        ExecutionState.Failed
      else state
    (state2, some result)
  else
    (state, previous)

/-- Embeds the synthesized result of a policy-skipped step
(execution.rs lines 368-376): aborted, exit code 0, no duration. -/
def skippedResult (command_id : String) (focus_id : Option String) :
    ExecutionResult :=
  { command_id := command_id
    focus_id := focus_id
    exit_code := 0
    aborted := true
    duration := none }

/-- The mutable part of `ExecutionContext` (execution.rs lines 36-47) that the
per-step state machine reads and writes: overall state and previous
non-hook result. -/
structure StepCtx where
  state : ExecutionState
  previous : Option ExecutionResult
deriving DecidableEq, Repr

/-- Embeds the control flow of `Executor::execute_step`
(execution.rs lines 316-390) at the state-machine level: evaluate the policy,
either take the handler outcome `runOutcome` (the step runs) or synthesize an
aborted result (the step is skipped), then apply the post-step update. -/
def executeStepModel (command_id : String) (c : Command)
    (focus_id : Option String) (runOutcome : ExecutionResult)
    (ctx : StepCtx) : ExecutionResult × StepCtx :=
  let we := willExecute c.policy ctx.state ctx.previous
  let result := if we then runOutcome else skippedResult command_id focus_id
  let p := recordResult c result ctx.state ctx.previous
  (result, { state := p.1, previous := p.2 })

/-- Folds the post-step updates of `Executor::execute_step`
(execution.rs lines 381-388) over a finished run: the Executor starts from
state Running with no previous result (execution.rs lines 50-62) and applies
`recordResult` once per executed step, in order. -/
def runFoldFrom (steps : List (Command × ExecutionResult)) (ctx : StepCtx) :
    StepCtx :=
  match steps with
  | [] => ctx
  | p :: rest =>
      let q := recordResult p.1 p.2 ctx.state ctx.previous
      runFoldFrom rest { state := q.1, previous := q.2 }

/-- The overall state and previous result after a sequence of steps,
starting from the initial context of `ExecutionContext::new`
(execution.rs lines 50-62). -/
def runFold (steps : List (Command × ExecutionResult)) : StepCtx :=
  runFoldFrom steps { state := ExecutionState.Running, previous := none }

/-- Embeds the constant `ENV_PREV_NAME` (execution.rs line 237). -/
def ENV_PREV_NAME : String := "NAUMAN_PREV_NAME"

/-- Embeds the constant `ENV_PREV_ID` (execution.rs line 238). -/
def ENV_PREV_ID : String := "NAUMAN_PREV_ID"

/-- Embeds the constant `ENV_PREV_CODE` (execution.rs line 239). -/
def ENV_PREV_CODE : String := "NAUMAN_PREV_CODE"

/-- Embeds the constant `ENV_JOB_NAME` (execution.rs line 240). -/
def ENV_JOB_NAME : String := "NAUMAN_JOB_NAME"

/-- Embeds the constant `ENV_JOB_ID` (execution.rs line 241). -/
def ENV_JOB_ID : String := "NAUMAN_JOB_ID"

/-- Embeds the constant `ENV_TASK_NAME` (execution.rs line 242). -/
def ENV_TASK_NAME : String := "NAUMAN_TASK_NAME"

/-- Embeds the constant `ENV_TASK_ID` (execution.rs line 243). -/
def ENV_TASK_ID : String := "NAUMAN_TASK_ID"

/-- Embeds the constant `ENV_OUTPUT_FILE` (execution.rs line 244). -/
def ENV_OUTPUT_FILE : String := "NAUMAN_OUTPUT_FILE"

/-- Embeds the run-start environment construction of `Executor::execute`
(execution.rs lines 271-292): optionally the process environment, overlaid
with the parsed dotenv mapping when a dotenv path is configured, overlaid
with the flow-level environment, then the job name and job id variables
inserted (both bound to the flow identifier). `sysEnv` is the parsed
process environment and `dotenvE` the parsed dotenv file contents. -/
def buildBaseEnv (system_env : Bool) (dotenv : Option String)
    (sysEnv dotenvE flowEnv : EnvMap) (flowId : String) : EnvMap :=
  let e := if system_env then EnvMap.extend EnvMap.empty sysEnv
           else EnvMap.empty
  let e := match dotenv with
    | some _ => e.extend dotenvE
    | none => e
  let e := e.extend flowEnv
  let e := e.insert ENV_JOB_NAME flowId
  e.insert ENV_JOB_ID flowId

/-- Embeds the per-step environment preparation of `Executor::execute_step`
(execution.rs lines 342-353): when a previous non-hook result exists, insert
its exit code, identifier and display name; then insert the current step
name and identifier and the output-file path. `prevName` is the display
name looked up from the flow for the previous command id. -/
def prepareStepEnv (env : EnvMap) (previous : Option ExecutionResult)
    (prevName : String) (c : Command) (command_id : String)
    (outputFile : String) : EnvMap :=
  let e := match previous with
    | some p =>
        ((env.insert ENV_PREV_CODE (toString p.exit_code)).insert
          ENV_PREV_ID p.command_id).insert ENV_PREV_NAME prevName
    | none => env
  let e := e.insert ENV_TASK_NAME c.name
  let e := e.insert ENV_TASK_ID command_id
  e.insert ENV_OUTPUT_FILE outputFile

/-- Embeds the child-environment construction of `Shell::execute`
(execution.rs lines 161-163): clone the context environment and overlay the
step-level environment overrides. -/
def childEnv (ctxEnv : EnvMap) (c : Command) : EnvMap :=
  ctxEnv.extend c.env

/-- Embeds the output-file merge of `Executor::execute_step`
(execution.rs lines 358-364): when the output file exists, the key=value
pairs parsed from it are overlaid onto the accumulated environment;
`outputs = none` models the file not existing. -/
def mergeOutputs (env : EnvMap) (outputs : Option EnvMap) : EnvMap :=
  match outputs with
  | some o => env.extend o
  | none => env

/-- The per-step synthesized variables of execution.rs lines 342-353 as a
standalone mapping (the same inserts performed on the empty mapping). -/
def stepSynthEnv (previous : Option ExecutionResult) (prevName : String)
    (c : Command) (command_id : String) (outputFile : String) : EnvMap :=
  prepareStepEnv EnvMap.empty previous prevName c command_id outputFile

/-- The job-level synthesized variables of execution.rs lines 291-292 as a
standalone mapping. -/
def jobSynthEnv (flowId : String) : EnvMap :=
  (EnvMap.empty.insert ENV_JOB_NAME flowId).insert ENV_JOB_ID flowId

/-- Modelled from the spec: the fields of `config::Shell` (config.rs is not
in src/) that `Shell::execute` reads: optional shell-kind override, optional
executable-path override, the command text. Shell kinds are modelled as
strings with equality. -/
structure ShellHandler where
  shell : Option String
  shell_path : Option String
  run : String

/-- Embeds the shell resolution of `Shell::execute`
(execution.rs line 169): the step shell override when present, else the
run-wide default shell. -/
def resolveShellKind (s : ShellHandler) (optShell : String) : String :=
  s.shell.getD optShell

/-- Embeds the shell-path resolution of `Shell::execute`
(execution.rs lines 170-176): the step path override when present, else the
run-wide path override when the resolved shell equals the run-wide default
shell, else no override. -/
def resolveShellPath (s : ShellHandler) (optShell : String)
    (optPath : Option String) : Option String :=
  s.shell_path.orElse (fun _ =>
    if resolveShellKind s optShell = optShell then optPath else none)

/-- Embeds the constant `BUFFER_SIZE` (execution.rs line 115): size in bytes
of the fixed read buffer of each capture worker. -/
def BUFFER_SIZE : Nat := 1024

/-- Embeds the channel capacity passed to `bounded` in `capture_command`
(execution.rs line 129): at most this many in-flight messages. -/
def CHANNEL_CAPACITY : Nat := 4

/-- Embeds `logging::InputStream` as used in execution.rs: the tag naming
which of the two child streams a chunk came from. -/
inductive InputStream where
  | Stdout
  | Stderr
deriving DecidableEq, Repr

/-- One outcome of a blocking `read` call on a child stream, as distinguished
by `read_buffer` (execution.rs lines 79-87): `ok chunk` is `Ok(size)` with
the bytes read (`ok []` is the zero-length read at end of stream),
`wouldBlock` is an error of kind `WouldBlock`, and `err e` is any other
read error. -/
inductive ReadOutcome where
  | ok (chunk : List Nat)
  | wouldBlock
  | err (e : Nat)
deriving DecidableEq, Repr

/-- Embeds `read_buffer` (execution.rs lines 79-87): a successful read yields
`some chunk`, a `WouldBlock` error yields `none`, any other error is
propagated. -/
def read_buffer (o : ReadOutcome) : Except Nat (Option (List Nat)) :=
  match o with
  | .ok chunk => .ok (some chunk)
  | .wouldBlock => .ok none
  | .err e => .error e

/-- How a capture worker loop came to an end. `drained` is an artifact of
modelling the stream as a finite outcome list: it marks the list running
out with the loop still going (a real blocking read would block instead). -/
inductive WorkerStop where
  | eofStop
  | blockStop
  | errStop (e : Nat)
  | drained
deriving DecidableEq, Repr

/-- The `Result` value the worker thread of `capture_stream` returns for each
way its loop can end (execution.rs lines 98-111): breaking on a zero-length
read or on a `WouldBlock` outcome returns success, a read error is
propagated. -/
def WorkerStop.toResult (s : WorkerStop) : Except Nat Unit :=
  match s with
  | .eofStop => .ok ()
  | .blockStop => .ok ()
  | .errStop e => .error e
  | .drained => .ok ()

/-- Embeds the worker loop of `capture_stream` (execution.rs lines 89-113)
run over a finite list of read outcomes: on `Ok(None)` (would-block) break;
on a zero-length read break; on a non-empty read send one
(buffer, size, stream) message; on a read error stop and propagate it.
Returns the sent messages in order and how the loop stopped. -/
def capture_stream (outcomes : List ReadOutcome) (stream : InputStream) :
    List (List Nat × Nat × InputStream) × WorkerStop :=
  match outcomes with
  | [] => ([], .drained)
  | o :: rest =>
      match read_buffer o with
      | .ok none => ([], .blockStop)
      | .ok (some chunk) =>
          if chunk.length = 0 then ([], .eofStop)
          else
            let p := capture_stream rest stream
            ((chunk, chunk.length, stream) :: p.1, p.2)
      | .error e => ([], .errStop e)

/-- The bytes the child actually wrote on one stream: the concatenation of
all successfully readable chunks in the outcome list. -/
def streamBytes (outcomes : List ReadOutcome) : List Nat :=
  match outcomes with
  | [] => []
  | .ok chunk :: rest => chunk ++ streamBytes rest
  | .wouldBlock :: rest => streamBytes rest
  | .err _ :: rest => streamBytes rest

/-- The bytes carried by a list of capture messages, in delivery order. -/
def sentBytes (msgs : List (List Nat × Nat × InputStream)) : List Nat :=
  match msgs with
  | [] => []
  | m :: rest => m.1 ++ sentBytes rest

/-- The read-outcome list of a well-behaved blocking stream: each chunk is
delivered by one successful read, then a zero-length read signals end of
stream. -/
def blockingOutcomes (chunks : List (List Nat)) : List ReadOutcome :=
  chunks.map ReadOutcome.ok ++ [ReadOutcome.ok []]

/-- Embeds the consumer loop of `capture_command`
(execution.rs lines 135-137) as a relation: the messages received from the
shared channel are an order-preserving interleaving of the two worker
message sequences. -/
inductive Interleave : List (List Nat × Nat × InputStream) →
    List (List Nat × Nat × InputStream) →
    List (List Nat × Nat × InputStream) → Prop where
  | nil : Interleave [] [] []
  | left {x xs ys zs} : Interleave xs ys zs →
      Interleave (x :: xs) ys (x :: zs)
  | right {y xs ys zs} : Interleave xs ys zs →
      Interleave xs (y :: ys) (y :: zs)

/-- The messages of one stream among the merged message sequence the
consumer writes to the multiplexed output. -/
def streamMessages (merged : List (List Nat × Nat × InputStream))
    (stream : InputStream) : List (List Nat × Nat × InputStream) :=
  merged.filter (fun m => m.2.2 = stream)

/-- Whether a read outcome keeps the worker loop of `capture_stream` going:
only a successful, non-empty read does (execution.rs lines 98-110). -/
def isDataRead (o : ReadOutcome) : Bool :=
  match o with
  | .ok chunk => !chunk.isEmpty
  | _ => false

/-- The bytes of a successful read outcome. -/
def chunkOf (o : ReadOutcome) : List Nat :=
  match o with
  | .ok chunk => chunk
  | _ => []

/-- The way the worker loop stops, read off the first outcome that is not a
successful non-empty read: a zero-length read breaks the loop, a would-block
outcome breaks the loop, any other error is propagated; `none` means the
finite outcome list ran out. -/
def stopOf (o : Option ReadOutcome) : WorkerStop :=
  match o with
  | some (.ok _) => .eofStop
  | some .wouldBlock => .blockStop
  | some (.err e) => .errStop e
  | none => .drained

/-- Outcome of one sink write call: the `io::Result<usize>` a sink variant
returns, with error values modelled as naturals. -/
def SinkWriteResult : Type := Except Nat Nat

/-- Modelled observable state and behavior of one `Output` sink variant
(output.rs lines 78-141): `writeBehavior` and `flushBehavior` give the
`io::Result` its underlying destination produces for a call, while
`received` and `flushes` log the write and flush calls the sink has
observed, in order. -/
structure OutputSink where
  writeBehavior : List Nat → Except Nat Nat
  flushBehavior : Except Nat Unit
  received : List (List Nat)
  flushes : Nat

/-- Embeds one call to `Output::write` (output.rs lines 121-130): the sink
observes the full buffer and returns the result of its destination. -/
def OutputSink.write (o : OutputSink) (buf : List Nat) :
    OutputSink × Except Nat Nat :=
  ({ o with received := o.received ++ [buf] }, o.writeBehavior buf)

/-- Embeds one call to `Output::flush` (output.rs lines 132-140). -/
def OutputSink.flush (o : OutputSink) : OutputSink × Except Nat Unit :=
  ({ o with flushes := o.flushes + 1 }, o.flushBehavior)

/-- Embeds the `Null` sink (output.rs lines 26 and 68-76): its write accepts
any buffer, reports 0 bytes written and never errors; its flush always
succeeds. -/
def nullSink : OutputSink :=
  { writeBehavior := fun _ => .ok 0
    flushBehavior := .ok ()
    received := []
    flushes := 0 }

/-- Embeds the write loop of `MultiplexedOutput`
(output.rs lines 158-163): forward the buffer to each sink in registration
order; the `?` operator returns the first error immediately, skipping the
remaining sinks; after the loop, report the full buffer length as written,
discarding the counts the sinks returned. -/
def writeLoop (outs : List OutputSink) (buf : List Nat) :
    List OutputSink × Except Nat Nat :=
  match outs with
  | [] => ([], .ok buf.length)
  | o :: rest =>
      let p := o.write buf
      match p.2 with
      | .ok _ =>
          let q := writeLoop rest buf
          (p.1 :: q.1, q.2)
      | .error e => (p.1 :: rest, .error e)

/-- Embeds the flush loop of `MultiplexedOutput`
(output.rs lines 165-170): flush each sink in registration order,
returning the first error immediately. -/
def flushLoop (outs : List OutputSink) :
    List OutputSink × Except Nat Unit :=
  match outs with
  | [] => ([], .ok ())
  | o :: rest =>
      let p := o.flush
      match p.2 with
      | .ok _ =>
          let q := flushLoop rest
          (p.1 :: q.1, q.2)
      | .error e => (p.1 :: rest, .error e)

/-- Embeds `MultiplexedOutput` (output.rs lines 143-155): the ordered list
of registered sinks. -/
structure MultiplexedOutput where
  outputs : List OutputSink

/-- Embeds `MultiplexedOutput::write` (output.rs lines 158-163). -/
def MultiplexedOutput.write (m : MultiplexedOutput) (buf : List Nat) :
    MultiplexedOutput × Except Nat Nat :=
  let p := writeLoop m.outputs buf
  ({ outputs := p.1 }, p.2)

/-- Embeds `MultiplexedOutput::flush` (output.rs lines 165-170). -/
def MultiplexedOutput.flush (m : MultiplexedOutput) :
    MultiplexedOutput × Except Nat Unit :=
  let p := flushLoop m.outputs
  ({ outputs := p.1 }, p.2)

/-- A sink after it observed one more write of the given buffer. -/
def afterWrite (buf : List Nat) (o : OutputSink) : OutputSink :=
  { o with received := o.received ++ [buf] }

/-- A sink after it observed one more flush call. -/
def afterFlush (o : OutputSink) : OutputSink :=
  { o with flushes := o.flushes + 1 }

/-- Fixture: a plain main step under the Always policy. -/
def cmdPlain : Command :=
  { name := "build", env := EnvMap.empty,
    policy := ExecutionPolicy.Always, is_hook := false }

/-- Fixture: a hook step under the Always policy. -/
def cmdHook : Command :=
  { name := "notify", env := EnvMap.empty,
    policy := ExecutionPolicy.Always, is_hook := true }

/-- Fixture: a main step gated by the NoPriorFailed policy. -/
def cmdGated : Command :=
  { name := "deploy", env := EnvMap.empty,
    policy := ExecutionPolicy.NoPriorFailed, is_hook := false }

/-- Fixture: a main step whose step-level overrides rebind the synthesized
task-id variable. -/
def cmdTaskOverride : Command :=
  { name := "n", env := EnvMap.empty.insert ENV_TASK_ID "custom",
    policy := ExecutionPolicy.Always, is_hook := false }

/-- Fixture: a non-aborted result with exit code 1. -/
def resExitOne : ExecutionResult :=
  { command_id := "build", focus_id := none, exit_code := 1,
    aborted := false, duration := none }

/-- Fixture: a non-aborted result with exit code 0. -/
def resExitZero : ExecutionResult :=
  { command_id := "build", focus_id := none, exit_code := 0,
    aborted := false, duration := some 5 }

/-- Fixture: a shell handler with a shell-kind override and no path
override. -/
def shellStep : ShellHandler :=
  { shell := some "zsh", shell_path := none, run := "echo hi" }

/-- Fixture: a sink whose destination accepts every buffer, reporting the
full count. -/
def okSink : OutputSink :=
  { writeBehavior := fun bufr => Except.ok bufr.length
    flushBehavior := Except.ok ()
    received := []
    flushes := 0 }

/-- Fixture: a sink whose destination rejects every write with error 5 and
every flush with error 7. -/
def failSink : OutputSink :=
  { writeBehavior := fun _ => Except.error 5
    flushBehavior := Except.error 7
    received := []
    flushes := 0 }

/-! Helper lemmas shared by the claim theorems. -/

theorem recordResult_state_failed_iff (c : Command) (r : ExecutionResult)
    (st : ExecutionState) (prev : Option ExecutionResult) :
    (recordResult c r st prev).1 = ExecutionState.Failed ↔
      st = ExecutionState.Failed ∨
        (c.is_hook = false ∧ r.aborted = false ∧ r.exit_code ≠ 0) := by
  unfold recordResult
  cases hk : c.is_hook
  · by_cases hex : r.exit_code = 0 <;> by_cases hab : r.aborted = true <;>
      simp [ExecutionResult.is_success, ExecutionResult.is_aborted, hk, hex,
        hab, Bool.not_eq_true] at *
  · simp [hk]

theorem runFoldFrom_append (steps more : List (Command × ExecutionResult))
    (ctx : StepCtx) :
    runFoldFrom (steps ++ more) ctx =
      runFoldFrom more (runFoldFrom steps ctx) := by
  induction steps generalizing ctx with
  | nil => rfl
  | cons p rest ih => simp [runFoldFrom, ih]

theorem runFoldFrom_state_failed_iff
    (steps : List (Command × ExecutionResult)) (ctx : StepCtx) :
    (runFoldFrom steps ctx).state = ExecutionState.Failed ↔
      ctx.state = ExecutionState.Failed ∨
        ∃ p ∈ steps,
          p.1.is_hook = false ∧ p.2.aborted = false ∧ p.2.exit_code ≠ 0 := by
  induction steps generalizing ctx with
  | nil => simp [runFoldFrom]
  | cons p rest ih =>
      simp only [runFoldFrom, ih, List.mem_cons]
      rw [recordResult_state_failed_iff]
      constructor
      · rintro (h | h)
        · rcases h with h | h
          · exact Or.inl h
          · exact Or.inr ⟨p, Or.inl rfl, h⟩
        · rcases h with ⟨q, hq, h⟩
          exact Or.inr ⟨q, Or.inr hq, h⟩
      · rintro (h | ⟨q, hq | hq, h⟩)
        · exact Or.inl (Or.inl h)
        · subst hq; exact Or.inl (Or.inr h)
        · exact Or.inr ⟨q, hq, h⟩

theorem extend_get (e g : EnvMap) (k : String) :
    (e.extend g) k = (g k).or (e k) := by
  show (match g k with | some v => some v | none => e k) = (g k).or (e k)
  cases g k <;> rfl

theorem prepareStepEnv_extend (e : EnvMap)
    (previous : Option ExecutionResult) (prevName : String) (c : Command)
    (command_id outputFile : String) :
    prepareStepEnv e previous prevName c command_id outputFile =
      e.extend (stepSynthEnv previous prevName c command_id outputFile) := by
  funext x
  cases previous <;>
    simp only [prepareStepEnv, stepSynthEnv, EnvMap.insert, EnvMap.extend,
      EnvMap.empty] <;>
    split_ifs <;> rfl

theorem buildBaseEnv_get (dpath : String) (sysEnv dotenvE flowEnv : EnvMap)
    (flowId : String) (k : String) :
    (buildBaseEnv true (some dpath) sysEnv dotenvE flowEnv flowId) k =
      ((jobSynthEnv flowId) k).or
        ((flowEnv k).or ((dotenvE k).or (sysEnv k))) := by
  simp only [buildBaseEnv, jobSynthEnv, EnvMap.insert, if_true]
  rw [extend_get, extend_get, extend_get]
  show (if k = ENV_JOB_ID then some flowId
        else if k = ENV_JOB_NAME then some flowId
        else (flowEnv k).or ((dotenvE k).or ((sysEnv k).or (EnvMap.empty k))))
      = ((if k = ENV_JOB_ID then some flowId
          else if k = ENV_JOB_NAME then some flowId
          else EnvMap.empty k)).or
          ((flowEnv k).or ((dotenvE k).or (sysEnv k)))
  split_ifs <;> simp [EnvMap.empty, Option.none_or, Option.or_none]

theorem capture_stream_split (outcomes : List ReadOutcome)
    (s : InputStream) :
    capture_stream outcomes s =
      ((outcomes.takeWhile isDataRead).map
        (fun o => (chunkOf o, (chunkOf o).length, s)),
       stopOf (outcomes.dropWhile isDataRead).head?) := by
  induction outcomes with
  | nil => rfl
  | cons o rest ih =>
      cases o with
      | ok chunk =>
          cases chunk with
          | nil => rfl
          | cons b bs =>
              simp [capture_stream, read_buffer, List.takeWhile,
                List.dropWhile, isDataRead, chunkOf, ih]
      | wouldBlock => rfl
      | err e => rfl

theorem capture_stream_blocking (chunks : List (List Nat)) (s : InputStream)
    (h : ∀ c ∈ chunks, c ≠ []) :
    capture_stream (blockingOutcomes chunks) s =
      (chunks.map (fun c => (c, c.length, s)), WorkerStop.eofStop) := by
  induction chunks with
  | nil => rfl
  | cons c cs ih =>
      have hc : c ≠ [] := h c (List.mem_cons_self c cs)
      cases c with
      | nil => exact absurd rfl hc
      | cons b bs =>
          simp only [blockingOutcomes, List.map_cons, List.cons_append,
            capture_stream, read_buffer]
          rw [if_neg (by simp)]
          have hrest := ih (fun x hx => h x (List.mem_cons_of_mem _ hx))
          simp only [blockingOutcomes] at hrest
          simp [hrest]

theorem sentBytes_map (chunks : List (List Nat)) (s : InputStream) :
    sentBytes (chunks.map (fun c => (c, c.length, s))) = chunks.flatten := by
  induction chunks with
  | nil => rfl
  | cons c cs ih => simp [sentBytes, ih]

theorem streamBytes_blocking (chunks : List (List Nat)) :
    streamBytes (blockingOutcomes chunks) = chunks.flatten := by
  induction chunks with
  | nil => rfl
  | cons c cs ih =>
      simp only [blockingOutcomes, List.map_cons, List.cons_append,
        streamBytes] at *
      simp [ih]

theorem interleave_swap
    {ms1 ms2 merged : List (List Nat × Nat × InputStream)}
    (hI : Interleave ms1 ms2 merged) : Interleave ms2 ms1 merged := by
  induction hI with
  | nil => exact Interleave.nil
  | left h ih => exact Interleave.right ih
  | right h ih => exact Interleave.left ih

theorem interleave_filter (s1 s2 : InputStream)
    {ms1 ms2 merged : List (List Nat × Nat × InputStream)} (hne : s1 ≠ s2)
    (h1 : ∀ m ∈ ms1, m.2.2 = s1) (h2 : ∀ m ∈ ms2, m.2.2 = s2)
    (hI : Interleave ms1 ms2 merged) :
    streamMessages merged s1 = ms1 := by
  induction hI with
  | nil => rfl
  | @left x xs ys zs h ih =>
      have hx : x.2.2 = s1 := h1 x (List.mem_cons_self x xs)
      simp only [streamMessages, List.filter_cons] at *
      rw [if_pos (by simp [hx])]
      rw [ih (fun m hm => h1 m (List.mem_cons_of_mem _ hm)) h2]
  | @right y xs ys zs h ih =>
      have hy : y.2.2 = s2 := h2 y (List.mem_cons_self y ys)
      simp only [streamMessages, List.filter_cons] at *
      rw [if_neg (by simp [hy]; exact fun hc => hne hc.symm)]
      exact ih h1 (fun m hm => h2 m (List.mem_cons_of_mem _ hm))

theorem writeLoop_all_ok (outs : List OutputSink) (buf : List Nat)
    (h : ∀ o ∈ outs, ∃ n, o.writeBehavior buf = Except.ok n) :
    writeLoop outs buf =
      (outs.map (afterWrite buf), Except.ok buf.length) := by
  induction outs with
  | nil => rfl
  | cons o rest ih =>
      rcases h o (List.mem_cons_self o rest) with ⟨n, hn⟩
      simp only [writeLoop, OutputSink.write, hn,
        ih (fun x hx => h x (List.mem_cons_of_mem _ hx)), List.map_cons]
      rfl

theorem writeLoop_fail (pre : List OutputSink) (bad : OutputSink)
    (post : List OutputSink) (buf : List Nat) (e : Nat)
    (hpre : ∀ o ∈ pre, ∃ n, o.writeBehavior buf = Except.ok n)
    (hbad : bad.writeBehavior buf = Except.error e) :
    writeLoop (pre ++ bad :: post) buf =
      (pre.map (afterWrite buf) ++ afterWrite buf bad :: post,
       Except.error e) := by
  induction pre with
  | nil =>
      simp only [List.nil_append, writeLoop, OutputSink.write, hbad,
        List.map_nil, afterWrite]
  | cons o rest ih =>
      rcases hpre o (List.mem_cons_self o rest) with ⟨n, hn⟩
      simp only [List.cons_append, writeLoop, OutputSink.write, hn,
        List.append_eq, ih (fun x hx => hpre x (List.mem_cons_of_mem _ hx)),
        List.map_cons]
      simp [afterWrite]

theorem flushLoop_all_ok (outs : List OutputSink)
    (h : ∀ o ∈ outs, o.flushBehavior = Except.ok ()) :
    flushLoop outs = (outs.map afterFlush, Except.ok ()) := by
  induction outs with
  | nil => rfl
  | cons o rest ih =>
      have hn := h o (List.mem_cons_self o rest)
      simp only [flushLoop, OutputSink.flush, hn,
        ih (fun x hx => h x (List.mem_cons_of_mem _ hx)), List.map_cons]
      simp [afterFlush, hn]

theorem flushLoop_fail (pre : List OutputSink) (bad : OutputSink)
    (post : List OutputSink) (e : Nat)
    (hpre : ∀ o ∈ pre, o.flushBehavior = Except.ok ())
    (hbad : bad.flushBehavior = Except.error e) :
    flushLoop (pre ++ bad :: post) =
      (pre.map afterFlush ++ afterFlush bad :: post, Except.error e) := by
  induction pre with
  | nil =>
      simp only [List.nil_append, flushLoop, OutputSink.flush, hbad,
        List.map_nil, afterFlush]
  | cons o rest ih =>
      have hn := hpre o (List.mem_cons_self o rest)
      simp only [List.cons_append, flushLoop, OutputSink.flush, hn,
        List.append_eq, ih (fun x hx => hpre x (List.mem_cons_of_mem _ hx)),
        List.map_cons]
      simp [afterFlush, hn]

/-! Claim theorems. -/

/-- C1: the policy evaluation before execution decides abortion exactly as
follows: under PriorSuccess the step is aborted iff a previous non-hook
result exists and its exit code is non-zero; under NoPriorFailed the step is
aborted iff the overall run state is already Failed; under Always the step
is never aborted by policy. -/
theorem policy_abort_characterization (state : ExecutionState)
    (previous : Option ExecutionResult) :
    (willExecute ExecutionPolicy.PriorSuccess state previous = false ↔
      ∃ r, previous = some r ∧ r.exit_code ≠ 0)
    ∧ (willExecute ExecutionPolicy.NoPriorFailed state previous = false ↔
      state = ExecutionState.Failed)
    ∧ willExecute ExecutionPolicy.Always state previous = true := by
  refine ⟨?_, ?_, rfl⟩
  · cases previous with
    | none => simp [willExecute]
    | some r => simp [willExecute, ExecutionResult.is_success]
  · cases state <;> simp [willExecute]

/-- C2: for every sequence of executed steps, the overall run state is
Failed iff some non-hook, non-aborted step so far produced a non-zero exit
code; once Failed the state stays Failed under any further steps, so it only
transitions Running to Failed, and a hook step never causes or clears the
transition. -/
theorem overall_state_failed_iff
    (steps : List (Command × ExecutionResult)) :
    ((runFold steps).state = ExecutionState.Failed ↔
      ∃ p ∈ steps,
        p.1.is_hook = false ∧ p.2.aborted = false ∧ p.2.exit_code ≠ 0)
    ∧ (∀ more, (runFold steps).state = ExecutionState.Failed →
        (runFold (steps ++ more)).state = ExecutionState.Failed) := by
  constructor
  · rw [runFold, runFoldFrom_state_failed_iff]
    simp
  · intro more h
    rw [runFold, runFoldFrom_append, runFoldFrom_state_failed_iff]
    exact Or.inl h

/-- Witness for C2 at a concrete run: a failing main step makes the state
Failed and it stays Failed after a further step. -/
theorem overall_state_failed_iff_witness :
    (runFold ([(cmdPlain, resExitOne)] ++ [(cmdPlain, resExitZero)])).state =
      ExecutionState.Failed :=
  (overall_state_failed_iff [(cmdPlain, resExitOne)]).2
    [(cmdPlain, resExitZero)] (by decide)

/-- C3: after a non-hook step completes, its result is unconditionally
recorded as the previous result, and the state is set to Failed exactly when
the result is neither a success nor aborted (otherwise the state is left as
it was); after a hook step, neither the previous result nor the state is
modified. -/
theorem step_record_update (c : Command) (r : ExecutionResult)
    (st : ExecutionState) (prev : Option ExecutionResult) :
    (c.is_hook = false →
      (recordResult c r st prev).2 = some r ∧
      (r.is_success = false ∧ r.is_aborted = false →
          (recordResult c r st prev).1 = ExecutionState.Failed) ∧
      (¬(r.is_success = false ∧ r.is_aborted = false) →
          (recordResult c r st prev).1 = st))
    ∧ (c.is_hook = true → recordResult c r st prev = (st, prev)) := by
  constructor
  · intro hk
    refine ⟨by simp [recordResult, hk], ?_, ?_⟩
    · intro h; simp [recordResult, hk, h]
    · intro h; simp [recordResult, hk, h]
  · intro hk; simp [recordResult, hk]

/-- Witness for C3 at concrete inputs: a failing main step is recorded and
fails the state; a hook step leaves the context untouched. -/
theorem step_record_update_witness :
    (recordResult cmdPlain resExitOne ExecutionState.Running none).2 =
      some resExitOne
    ∧ (recordResult cmdPlain resExitOne ExecutionState.Running none).1 =
      ExecutionState.Failed
    ∧ recordResult cmdHook resExitOne ExecutionState.Running none =
      (ExecutionState.Running, none) :=
  ⟨((step_record_update cmdPlain resExitOne ExecutionState.Running none).1
      rfl).1,
   ((step_record_update cmdPlain resExitOne ExecutionState.Running none).1
      rfl).2.1 (by decide),
   (step_record_update cmdHook resExitOne ExecutionState.Running none).2 rfl⟩

/-- Counterexample to C4 as stated: for a main, non-hook step skipped by
policy (NoPriorFailed with state already Failed), executing the skipped step
does change the previous-result field of the context, from `none` to the
synthesized aborted result. -/
theorem skip_previous_counterexample :
    willExecute cmdGated.policy ExecutionState.Failed none = false
    ∧ (executeStepModel "deploy" cmdGated none resExitOne
        { state := ExecutionState.Failed, previous := none }).2.previous ≠
        (none : Option ExecutionResult) := by
  constructor
  · rfl
  · decide

/-- C4 (amended): for every step the policy decides not to run, the handler
outcome is ignored and the result is synthesized with aborted true, exit
code 0 and no duration; executing the skipped step leaves the overall state
unchanged; the previous result is unchanged for a hook step, while for a
main, non-hook step the synthesized aborted result is recorded as the
previous result. -/
theorem skip_effect (command_id : String) (c : Command)
    (focus_id : Option String) (runOutcome : ExecutionResult) (ctx : StepCtx)
    (h : willExecute c.policy ctx.state ctx.previous = false) :
    (executeStepModel command_id c focus_id runOutcome ctx).1 =
      skippedResult command_id focus_id
    ∧ (executeStepModel command_id c focus_id runOutcome ctx).2.state =
        ctx.state
    ∧ (executeStepModel command_id c focus_id runOutcome ctx).2.previous =
        (if c.is_hook = true then ctx.previous
         else some (skippedResult command_id focus_id)) := by
  refine ⟨by simp [executeStepModel, h], ?_, ?_⟩
  · cases hk : c.is_hook <;>
      simp [executeStepModel, h, recordResult, hk, skippedResult,
        ExecutionResult.is_success, ExecutionResult.is_aborted]
  · cases hk : c.is_hook <;>
      simp [executeStepModel, h, recordResult, hk, skippedResult]

/-- Witness for C4 (amended) at a concrete skipped main step. -/
theorem skip_effect_witness :
    (executeStepModel "deploy" cmdGated none resExitOne
        { state := ExecutionState.Failed, previous := none }).1 =
      skippedResult "deploy" none
    ∧ (executeStepModel "deploy" cmdGated none resExitOne
        { state := ExecutionState.Failed, previous := none }).2.state =
      ExecutionState.Failed
    ∧ (executeStepModel "deploy" cmdGated none resExitOne
        { state := ExecutionState.Failed, previous := none }).2.previous =
      (if cmdGated.is_hook = true then none
       else some (skippedResult "deploy" none)) :=
  skip_effect "deploy" cmdGated none resExitOne
    { state := ExecutionState.Failed, previous := none } (by decide)

/-- Counterexample to C5 as stated: the step-level override of a key is not
overridden by the synthesized variable of the same key; the child
environment observes the step-level value, because `Shell::execute` overlays
the step-level overrides last. -/
theorem synth_override_counterexample :
    ((stepSynthEnv none "" cmdTaskOverride "step1" "file").get ENV_TASK_ID =
      some "step1")
    ∧ ((childEnv
        (prepareStepEnv EnvMap.empty none "" cmdTaskOverride "step1" "file")
        cmdTaskOverride).get ENV_TASK_ID = some "custom")
    ∧ ("custom" : String) ≠ "step1" := by
  refine ⟨by decide, by decide, by decide⟩

/-- C5 (amended): on key collision the environment seen by the child process
of a step follows the precedence chain process environment < dotenv file <
flow-level environment < job-level synthesized variables < key/value pairs
the prior step wrote to its output file < per-step synthesized variables <
step-level environment overrides, later overriding earlier; in particular a
key written to the output file by one step is observed by the next step
whenever neither the synthesized variables nor the step-level overrides of
that next step rebind it. -/
theorem env_precedence_chain (sysEnv dotenvE flowEnv outs : EnvMap)
    (dpath : String) (previous : Option ExecutionResult) (prevName : String)
    (c : Command) (flowId command_id outputFile : String) (k : String) :
    EnvMap.get
      (childEnv
        (prepareStepEnv
          (mergeOutputs
            (buildBaseEnv true (some dpath) sysEnv dotenvE flowEnv flowId)
            (some outs))
          previous prevName c command_id outputFile)
        c) k
    = (c.env.get k).or
        (((stepSynthEnv previous prevName c command_id outputFile).get k).or
          ((outs.get k).or
            (((jobSynthEnv flowId).get k).or
              ((flowEnv.get k).or
                ((dotenvE.get k).or (sysEnv.get k)))))) := by
  show (childEnv _ c) k = _
  rw [childEnv, extend_get, prepareStepEnv_extend, extend_get]
  show _ = (c.env k).or _
  rw [mergeOutputs, extend_get, buildBaseEnv_get]
  rfl

/-- C6: the multiplexed write forwards the entire buffer exactly once to
each sink in registration order up to and including the first sink whose
write fails; on a failing sink the error is returned immediately and later
sinks do not receive the buffer; with zero sinks the write succeeds; flush
forwards to every sink with the same short-circuit behavior. -/
theorem multiplexed_fanout :
    (∀ buf : List Nat, MultiplexedOutput.write ⟨[]⟩ buf =
      (⟨[]⟩, Except.ok buf.length))
    ∧ (∀ (outs : List OutputSink) (buf : List Nat),
        (∀ o ∈ outs, ∃ n, o.writeBehavior buf = Except.ok n) →
        MultiplexedOutput.write ⟨outs⟩ buf =
          (⟨outs.map (afterWrite buf)⟩, Except.ok buf.length))
    ∧ (∀ (pre : List OutputSink) (bad : OutputSink)
        (post : List OutputSink) (buf : List Nat) (e : Nat),
        (∀ o ∈ pre, ∃ n, o.writeBehavior buf = Except.ok n) →
        bad.writeBehavior buf = Except.error e →
        MultiplexedOutput.write ⟨pre ++ bad :: post⟩ buf =
          (⟨pre.map (afterWrite buf) ++ afterWrite buf bad :: post⟩,
           Except.error e))
    ∧ (∀ outs : List OutputSink,
        (∀ o ∈ outs, o.flushBehavior = Except.ok ()) →
        MultiplexedOutput.flush ⟨outs⟩ =
          (⟨outs.map afterFlush⟩, Except.ok ()))
    ∧ (∀ (pre : List OutputSink) (bad : OutputSink)
        (post : List OutputSink) (e : Nat),
        (∀ o ∈ pre, o.flushBehavior = Except.ok ()) →
        bad.flushBehavior = Except.error e →
        MultiplexedOutput.flush ⟨pre ++ bad :: post⟩ =
          (⟨pre.map afterFlush ++ afterFlush bad :: post⟩,
           Except.error e)) := by
  refine ⟨fun buf => rfl, ?_, ?_, ?_, ?_⟩
  · intro outs buf h
    simp [MultiplexedOutput.write, writeLoop_all_ok outs buf h]
  · intro pre bad post buf e hpre hbad
    simp [MultiplexedOutput.write,
      writeLoop_fail pre bad post buf e hpre hbad]
  · intro outs h
    simp [MultiplexedOutput.flush, flushLoop_all_ok outs h]
  · intro pre bad post e hpre hbad
    simp [MultiplexedOutput.flush, flushLoop_fail pre bad post e hpre hbad]

/-- Witness for C6 at a concrete failing sink list: the first two sinks
receive the buffer, the error of the second one is returned, and the third
sink does not receive the buffer. -/
theorem multiplexed_fanout_witness :
    MultiplexedOutput.write ⟨[okSink, failSink, okSink]⟩ [1, 2] =
      (⟨[afterWrite [1, 2] okSink, afterWrite [1, 2] failSink, okSink]⟩,
       Except.error 5) :=
  multiplexed_fanout.2.2.1 [okSink] failSink [okSink] [1, 2] 5
    (fun o ho => by
      rw [List.mem_singleton] at ho
      subst ho
      exact ⟨2, rfl⟩)
    rfl

/-- Counterexample to C7 as stated: there is a sequence of read outcomes
(a would-block outcome followed by data and end of stream) for which the
concatenation of the chunks the worker delivers differs from the full byte
stream of the child, because the worker breaks out of its loop on the
would-block outcome. -/
theorem capture_wouldblock_loses_bytes :
    sentBytes (capture_stream
        [ReadOutcome.wouldBlock, ReadOutcome.ok [7], ReadOutcome.ok []]
        InputStream.Stdout).1 ≠
      streamBytes
        [ReadOutcome.wouldBlock, ReadOutcome.ok [7], ReadOutcome.ok []] := by
  decide

/-- C7 (amended): for each of the two streams, when the stream produces only
successful reads ending in a zero-length read (blocking reads, no
would-block outcome and no read error), the concatenation of the chunks of
that stream delivered through the channel to the consumer, in any
interleaving with the other stream, equals the full byte stream of the
child on that stream. -/
theorem capture_no_byte_loss (chunks1 chunks2 : List (List Nat))
    (merged : List (List Nat × Nat × InputStream))
    (h1 : ∀ c ∈ chunks1, c ≠ [] ∧ c.length ≤ BUFFER_SIZE)
    (h2 : ∀ c ∈ chunks2, c ≠ [] ∧ c.length ≤ BUFFER_SIZE)
    (hI : Interleave
      (capture_stream (blockingOutcomes chunks1) InputStream.Stdout).1
      (capture_stream (blockingOutcomes chunks2) InputStream.Stderr).1
      merged) :
    sentBytes (streamMessages merged InputStream.Stdout) =
      streamBytes (blockingOutcomes chunks1)
    ∧ sentBytes (streamMessages merged InputStream.Stderr) =
      streamBytes (blockingOutcomes chunks2) := by
  rw [capture_stream_blocking chunks1 _ (fun c hc => (h1 c hc).1),
    capture_stream_blocking chunks2 _ (fun c hc => (h2 c hc).1)] at hI
  constructor
  · rw [interleave_filter InputStream.Stdout InputStream.Stderr (by decide)
      (fun m hm => by rcases List.mem_map.mp hm with ⟨c, hc, rfl⟩; rfl)
      (fun m hm => by rcases List.mem_map.mp hm with ⟨c, hc, rfl⟩; rfl) hI]
    rw [sentBytes_map, streamBytes_blocking]
  · rw [interleave_filter InputStream.Stderr InputStream.Stdout (by decide)
      (fun m hm => by rcases List.mem_map.mp hm with ⟨c, hc, rfl⟩; rfl)
      (fun m hm => by rcases List.mem_map.mp hm with ⟨c, hc, rfl⟩; rfl)
      (interleave_swap hI)]
    rw [sentBytes_map, streamBytes_blocking]

/-- Witness for C7 (amended) at concrete chunk lists and a concrete
interleaving. -/
theorem capture_no_byte_loss_witness :
    sentBytes (streamMessages
      [([1], 1, InputStream.Stdout), ([3], 1, InputStream.Stderr),
       ([2], 1, InputStream.Stdout)] InputStream.Stdout) =
      streamBytes (blockingOutcomes [[1], [2]])
    ∧ sentBytes (streamMessages
      [([1], 1, InputStream.Stdout), ([3], 1, InputStream.Stderr),
       ([2], 1, InputStream.Stdout)] InputStream.Stderr) =
      streamBytes (blockingOutcomes [[3]]) :=
  capture_no_byte_loss [[1], [2]] [[3]]
    [([1], 1, InputStream.Stdout), ([3], 1, InputStream.Stderr),
     ([2], 1, InputStream.Stdout)]
    (by decide) (by decide)
    (by exact Interleave.left (Interleave.right
      (Interleave.left Interleave.nil)))

/-- Counterexample to C8 as stated: on a would-block read outcome the worker
loop terminates successfully although the stream produced neither a
zero-length read nor a read error, so a zero-length read and a propagated
read error are not the only ways a worker terminates. -/
theorem worker_terminates_on_wouldblock :
    (capture_stream [ReadOutcome.wouldBlock] InputStream.Stdout).2.toResult =
      Except.ok ()
    ∧ ReadOutcome.ok [] ∉ [ReadOutcome.wouldBlock]
    ∧ (capture_stream [ReadOutcome.wouldBlock] InputStream.Stdout).2 ≠
        WorkerStop.eofStop
    ∧ (capture_stream [ReadOutcome.wouldBlock] InputStream.Stdout).2 ≠
        WorkerStop.drained := by
  exact ⟨rfl, by decide, by decide, by decide⟩

/-- C8 (amended): the worker reads into a fixed buffer of 1024 bytes and
sends, for every non-empty successful read and in read order, one
(buffer, byte-length, stream-tag) message into the single shared channel of
bounded capacity 4; the loop terminates at the first outcome that is not a
non-empty successful read: on a zero-length read or a would-block outcome it
stops reporting success, on any other read error it stops propagating the
error (or the finite outcome list is exhausted). -/
theorem worker_loop_characterization (outcomes : List ReadOutcome)
    (s : InputStream) :
    BUFFER_SIZE = 1024 ∧ CHANNEL_CAPACITY = 4
    ∧ (capture_stream outcomes s).1 =
        (outcomes.takeWhile isDataRead).map
          (fun o => (chunkOf o, (chunkOf o).length, s))
    ∧ (capture_stream outcomes s).2 =
        stopOf (outcomes.dropWhile isDataRead).head? := by
  refine ⟨rfl, rfl, ?_, ?_⟩ <;> rw [capture_stream_split]

/-- C9: the shell used by a step is the step shell override when present,
else the run-wide default shell; the shell executable path override is the
step path override when present, else the run-wide path override exactly
when the resolved shell equals the run-wide default shell, else no path
override. -/
theorem shell_resolution (s : ShellHandler) (optShell : String)
    (optPath : Option String) :
    (∀ k, s.shell = some k → resolveShellKind s optShell = k)
    ∧ (s.shell = none → resolveShellKind s optShell = optShell)
    ∧ (∀ p, s.shell_path = some p →
        resolveShellPath s optShell optPath = some p)
    ∧ (s.shell_path = none → resolveShellKind s optShell = optShell →
        resolveShellPath s optShell optPath = optPath)
    ∧ (s.shell_path = none → resolveShellKind s optShell ≠ optShell →
        resolveShellPath s optShell optPath = none) := by
  refine ⟨?_, ?_, ?_, ?_, ?_⟩
  · intro k hk; simp [resolveShellKind, hk]
  · intro hk; simp [resolveShellKind, hk]
  · intro p hp; simp [resolveShellPath, hp, Option.orElse]
  · intro hp he; simp [resolveShellPath, hp, he, Option.orElse]
  · intro hp he; simp [resolveShellPath, hp, he, Option.orElse]

/-- Witness for C9 at a concrete handler: a step shell override wins, and
because the resolved shell differs from the run-wide default, the run-wide
path override is not applied. -/
theorem shell_resolution_witness :
    resolveShellKind shellStep "bash" = "zsh"
    ∧ resolveShellPath shellStep "bash" (some "/bin/bash") = none :=
  ⟨(shell_resolution shellStep "bash" (some "/bin/bash")).1 "zsh" rfl,
   (shell_resolution shellStep "bash" (some "/bin/bash")).2.2.2.2 rfl
     (by decide)⟩

/-- C10: on success the multiplexed write reports the full input buffer
length whatever byte counts the sinks returned; the discard sink reports 0
bytes written for every buffer and never errors, yet the multiplexed write
over it still reports full success. -/
theorem write_reports_full_length :
    (∀ (outs : List OutputSink) (buf : List Nat),
        (∀ o ∈ outs, ∃ n, o.writeBehavior buf = Except.ok n) →
        (writeLoop outs buf).2 = Except.ok buf.length)
    ∧ (∀ buf : List Nat, nullSink.writeBehavior buf = Except.ok 0)
    ∧ (∀ buf : List Nat,
        (MultiplexedOutput.write ⟨[nullSink]⟩ buf).2 =
          Except.ok buf.length) := by
  refine ⟨?_, fun buf => rfl, fun buf => rfl⟩
  intro outs buf h
  rw [writeLoop_all_ok outs buf h]

/-- Witness for C10 at a concrete buffer over the discard sink. -/
theorem write_reports_full_length_witness :
    (writeLoop [nullSink] [9, 9, 9]).2 = Except.ok 3 :=
  write_reports_full_length.1 [nullSink] [9, 9, 9]
    (fun o ho => by
      rw [List.mem_singleton] at ho
      subst ho
      exact ⟨0, rfl⟩)

end Nauman
